import Mathlib

/-!
Verification of the sui-token-transfer-tracker monitoring engine.

This file gives a shallow embedding, in Lean 4, of the core data model and
operations of the tracker: the in-memory ledger (`transaction_processor.rs`),
the alert dispatcher (`alert_system.rs`) and the event poller
(`event_monitor.rs`), together with theorems settling the behavioural
claims made about them.

Modelling conventions:
- Rust `u64` values are modelled as `Nat`; `saturating_sub` is `Nat`
  subtraction (which truncates at 0) and `saturating_add` clamps at
  `2^64 - 1`.  Plain `+` on statistics counters is modelled as `Nat`
  addition (the code uses unchecked `u64` addition there).
- Rust `HashMap<String, V>` is modelled as an association list
  (`SMap V`) with entry-API style lookup/insert helpers; the `entry(k)
  .or_insert(d)` pattern becomes `getD m k d` followed by `setA`.
- `tokio` locking and `async` are erased: every operation becomes a pure
  state-transforming function (the Rust code holds all relevant write
  locks for the whole operation, so this is the linearized behaviour).
- Rust's stable `sort_by(|a, b| b.timestamp.cmp(&a.timestamp))` is
  modelled by a stable insertion sort descending by timestamp; a stable
  sort's output is uniquely determined by stability and sortedness, so
  the two agree element for element.
-/

/-- `2^64 - 1`, the largest `u64` value. -/
def u64max : Nat := 18446744073709551615

/-- Model of Rust `u64::saturating_sub` (as `Nat` subtraction truncates at 0). -/
def satSub (a b : Nat) : Nat := a - b

/-- Model of Rust `u64::saturating_add`, clamping at `u64::MAX`. -/
def satAdd (a b : Nat) : Nat := min (a + b) u64max

/-- Association-list model of `HashMap<String, V>`. -/
abbrev SMap (V : Type) : Type := List (String × V)

/-- Lookup, modelling `HashMap::get`. -/
def getA {V : Type} : SMap V → String → Option V
  | [], _ => none
  | (k, v) :: rest, key => if k = key then some v else getA rest key

/-- Lookup with a default, modelling `map.get(k).copied().unwrap_or(d)` and
the read half of `entry(k).or_insert(d)`. -/
def getD {V : Type} (m : SMap V) (key : String) (d : V) : V :=
  (getA m key).getD d

/-- Insert-or-replace, modelling assignment through `entry(k)`. -/
def setA {V : Type} : SMap V → String → V → SMap V
  | [], key, v => [(key, v)]
  | (k, w) :: rest, key, v =>
      if k = key then (k, v) :: rest else (k, w) :: setA rest key v

/-- Map a function over every stored value, keys unchanged
(models `for (_, v) in map.iter_mut() { ... }` loops). -/
def mapVal {V : Type} (f : V → V) (m : SMap V) : SMap V :=
  m.map (fun p => (p.1, f p.2))

theorem getA_setA_self {V : Type} (m : SMap V) (k : String) (v : V) :
    getA (setA m k v) k = some v := by
  induction m with
  | nil => simp [setA, getA]
  | cons p rest ih =>
      by_cases h : p.1 = k
      · simp [setA, h, getA]
      · simp [setA, h, getA, ih]

theorem getA_setA_ne {V : Type} (m : SMap V) (k k' : String) (v : V)
    (h : k ≠ k') : getA (setA m k v) k' = getA m k' := by
  induction m with
  | nil => simp [setA, getA, h]
  | cons p rest ih =>
      by_cases hp : p.1 = k
      · simp [setA, hp, getA, h]
      · by_cases hp' : p.1 = k'
        · simp [setA, hp, getA, hp', Ne.symm h]
        · simp [setA, hp, getA, hp', ih]

theorem getD_setA_self {V : Type} (m : SMap V) (k : String) (v d : V) :
    getD (setA m k v) k d = v := by
  simp [getD, getA_setA_self]

theorem getD_setA_ne {V : Type} (m : SMap V) (k k' : String) (v d : V)
    (h : k ≠ k') : getD (setA m k v) k' d = getD m k' d := by
  simp [getD, getA_setA_ne m k k' v h]

theorem getA_mapVal {V : Type} (f : V → V) (m : SMap V) (k : String) :
    getA (mapVal f m) k = (getA m k).map f := by
  induction m with
  | nil => simp [mapVal, getA]
  | cons p rest ih =>
      by_cases h : p.1 = k
      · simp [mapVal, getA, h]
      · simpa [mapVal, getA, h] using ih

/-! ## Data model (`transaction_processor.rs`, `event_monitor.rs`) -/

/-- `event_monitor.rs` `TransferEvent`: the parsed transfer record emitted by
the poller and consumed by the ledger. -/
structure TransferEvent where
  transaction_id : String
  package_id : String
  transaction_module : String
  sender : String
  recipient : String
  amount : Nat
  token_type : String
  timestamp : Nat
  block_number : Nat
  event_type : String
  deriving DecidableEq, Repr

/-- `transaction_processor.rs` `TransactionStatus`. -/
inductive TransactionStatus where
  | Success
  | Failed
  | Pending
  deriving DecidableEq, Repr

/-- `transaction_processor.rs` `Transaction`: the ledger's persisted record of
an applied `TransferEvent`. -/
structure Transaction where
  id : String
  sender : String
  recipient : String
  amount : Nat
  token_type : String
  timestamp : Nat
  block_number : Nat
  gas_used : Option Nat
  gas_price : Option Nat
  status : TransactionStatus
  deriving DecidableEq, Repr

/-- `transaction_processor.rs` `AddressStats`. -/
structure AddressStats where
  total_transactions : Nat
  total_sent : Nat
  total_received : Nat
  first_transaction : Option Nat
  last_transaction : Option Nat
  average_transaction_amount : Nat
  largest_transaction : Nat
  smallest_transaction : Nat
  deriving DecidableEq, Repr

/-- The fresh entry inserted by `stats.entry(addr).or_insert(AddressStats
{ total_transactions: 0, ..., smallest_transaction: u64::MAX })`. -/
def statsDefault : AddressStats :=
  { total_transactions := 0
    total_sent := 0
    total_received := 0
    first_transaction := none
    last_transaction := none
    average_transaction_amount := 0
    largest_transaction := 0
    smallest_transaction := u64max }

/-- The mutable ledger state of `TransactionProcessor`: the three maps guarded
by `RwLock`s in the source. -/
structure ProcState where
  address_balances : SMap Nat
  transaction_history : SMap (List Transaction)
  address_stats : SMap AddressStats
  deriving DecidableEq, Repr

/-- The empty state built by `TransactionProcessor::with_config`. -/
def initialProcState : ProcState :=
  { address_balances := []
    transaction_history := []
    address_stats := [] }

/-- Stable insertion of a transaction into a list already sorted descending by
timestamp, placing it after every element with an equal or larger timestamp. -/
def insertDescTs (t : Transaction) : List Transaction → List Transaction
  | [] => [t]
  | x :: xs =>
      if x.timestamp ≤ t.timestamp then t :: x :: xs else x :: insertDescTs t xs

/-- Stable sort descending by timestamp, modelling
`transactions.sort_by(|a, b| b.timestamp.cmp(&a.timestamp))` (Rust's
`sort_by` is stable, and a stable sort's output is determined by
stability and sortedness). -/
def sortDescTs : List Transaction → List Transaction
  | [] => []
  | x :: xs => insertDescTs x (sortDescTs xs)

/-- `TransactionProcessor::enforce_history_limits`, restricted to one list:
`if transactions.len() > max_records { sort desc by timestamp; truncate }`. -/
def enforceList (max_records : Nat) (l : List Transaction) : List Transaction :=
  if max_records < l.length then (sortDescTs l).take max_records else l

/-- `TransactionProcessor::enforce_history_limits`: the cap is applied to
every address's history list. -/
def enforce_history_limits (max_records : Nat)
    (history : SMap (List Transaction)) : SMap (List Transaction) :=
  mapVal (enforceList max_records) history

/-- The sender-side mutation of `update_address_stats`: `total_transactions += 1;
total_sent += amount; largest/smallest; first/last timestamp`. -/
def bumpSenderStats (s : AddressStats) (tx : Transaction) : AddressStats :=
  { s with
    total_transactions := s.total_transactions + 1
    total_sent := s.total_sent + tx.amount
    largest_transaction := max s.largest_transaction tx.amount
    smallest_transaction := min s.smallest_transaction tx.amount
    first_transaction :=
      match s.first_transaction with
      | none => some tx.timestamp
      | some t => if tx.timestamp < t then some tx.timestamp else some t
    last_transaction :=
      match s.last_transaction with
      | none => some tx.timestamp
      | some t => if t < tx.timestamp then some tx.timestamp else some t }

/-- The receiver-side mutation of `update_address_stats`: `total_transactions
+= 1; total_received += amount; largest/smallest; first/last timestamp`. -/
def bumpReceiverStats (s : AddressStats) (tx : Transaction) : AddressStats :=
  { s with
    total_transactions := s.total_transactions + 1
    total_received := s.total_received + tx.amount
    largest_transaction := max s.largest_transaction tx.amount
    smallest_transaction := min s.smallest_transaction tx.amount
    first_transaction :=
      match s.first_transaction with
      | none => some tx.timestamp
      | some t => if tx.timestamp < t then some tx.timestamp else some t
    last_transaction :=
      match s.last_transaction with
      | none => some tx.timestamp
      | some t => if t < tx.timestamp then some tx.timestamp else some t }

/-- The per-entry body of the final loop of `update_address_stats`: when
`total_transactions > 0`, set `average = (total_sent + total_received) /
total_transactions` (integer division). -/
def avgFix (s : AddressStats) : AddressStats :=
  if 0 < s.total_transactions then
    { s with
      average_transaction_amount :=
        (s.total_sent + s.total_received) / s.total_transactions }
  else s

/-- The final loop of `update_address_stats`: `avgFix` applied to every
entry of the stats map. -/
def recomputeAverages (stats : SMap AddressStats) : SMap AddressStats :=
  mapVal avgFix stats

/-- `TransactionProcessor::update_address_stats`: sender entry is
`or_insert`ed and bumped, then the recipient entry (the same entry when the
event is a self-transfer) is `or_insert`ed and bumped, then averages are
recomputed over the whole map. -/
def update_address_stats (stats : SMap AddressStats) (sender recipient : String)
    (tx : Transaction) : SMap AddressStats :=
  let s1 := setA stats sender (bumpSenderStats (getD stats sender statsDefault) tx)
  let s2 := setA s1 recipient (bumpReceiverStats (getD s1 recipient statsDefault) tx)
  recomputeAverages s2

/-- The `Transaction` record built inside `process_transfer_event`. -/
def mkTransaction (event : TransferEvent) : Transaction :=
  { id := event.transaction_id
    sender := event.sender
    recipient := event.recipient
    amount := event.amount
    token_type := event.token_type
    timestamp := event.timestamp
    block_number := event.block_number
    gas_used := none
    gas_price := none
    status := TransactionStatus.Success }

/-- `TransactionProcessor::process_transfer_event` (state effect): debit the
sender saturating at 0, credit the recipient saturating at `u64::MAX`, append
the transaction to both parties' history, update stats, then enforce the
history cap. `max_records` is `config.max_history_records`. -/
def process_transfer_event (max_records : Nat) (st : ProcState)
    (event : TransferEvent) : ProcState :=
  let sender_balance := getD st.address_balances event.sender 0
  let b1 := setA st.address_balances event.sender (satSub sender_balance event.amount)
  let receiver_balance := getD b1 event.recipient 0
  let b2 := setA b1 event.recipient (satAdd receiver_balance event.amount)
  let tx := mkTransaction event
  let h1 := setA st.transaction_history event.sender
      (getD st.transaction_history event.sender [] ++ [tx])
  let h2 := setA h1 event.recipient (getD h1 event.recipient [] ++ [tx])
  let stats2 := update_address_stats st.address_stats event.sender event.recipient tx
  let h3 := enforce_history_limits max_records h2
  { address_balances := b2
    transaction_history := h3
    address_stats := stats2 }

/-- `TransactionProcessor::get_address_balance`: 0 for an unseen address. -/
def get_address_balance (st : ProcState) (address : String) : Nat :=
  getD st.address_balances address 0

/-- The per-list `retain` of `cleanup_old_transactions`: keep a transaction
when `current_time.saturating_sub(tx.timestamp) <= max_age_seconds`. -/
def cleanupKeep (current_time max_age_seconds : Nat) (tx : Transaction) : Bool :=
  decide (satSub current_time tx.timestamp ≤ max_age_seconds)

/-- `TransactionProcessor::cleanup_old_transactions`: per address, retain only
recent-enough records, accumulating the number removed. Returns the new
history map and `removed_count`. -/
def cleanupHistory (current_time max_age_seconds : Nat) :
    SMap (List Transaction) → SMap (List Transaction) × Nat
  | [] => ([], 0)
  | (k, l) :: rest =>
      let l' := l.filter (cleanupKeep current_time max_age_seconds)
      let r := cleanupHistory current_time max_age_seconds rest
      ((k, l') :: r.1, (l.length - l'.length) + r.2)

/-- `TransactionProcessor::cleanup_old_transactions` (whole state): balances
and stats are not touched; the history map is filtered and the removed count
returned. `current_time` stands for `Utc::now().timestamp()`. -/
def cleanup_old_transactions (current_time max_age_seconds : Nat)
    (st : ProcState) : ProcState × Nat :=
  let r := cleanupHistory current_time max_age_seconds st.transaction_history
  ({ st with transaction_history := r.1 }, r.2)

/-- A ledger operation: one `process_transfer_event` or one
`cleanup_old_transactions` call. -/
inductive LedgerOp where
  | apply (event : TransferEvent)
  | cleanup (current_time max_age_seconds : Nat)
  deriving Repr

/-- Run a sequence of ledger operations from a given state. -/
def runOps (max_records : Nat) : List LedgerOp → ProcState → ProcState
  | [], st => st
  | LedgerOp.apply e :: rest, st =>
      runOps max_records rest (process_transfer_event max_records st e)
  | LedgerOp.cleanup now age :: rest, st =>
      runOps max_records rest (cleanup_old_transactions now age st).1

/-! ## Alert dispatcher (`alert_system.rs`) -/

/-- `alert_system.rs` `AlertSeverity`. -/
inductive AlertSeverity where
  | Info
  | Warning
  | Error
  | Critical
  deriving DecidableEq, Repr

/-- A `LargeTransfer` alert payload (the fields of `Alert::LargeTransfer`
other than the wall-clock `timestamp`). -/
structure LargeTransferAlert where
  sender : String
  recipient : String
  amount : Nat
  transaction_id : String
  token_type : String
  severity : AlertSeverity
  deriving DecidableEq, Repr

/-- A `LowBalance` alert payload (the fields of `Alert::LowBalance` other
than the wall-clock `timestamp`). -/
structure LowBalanceAlert where
  address : String
  balance : Nat
  threshold : Nat
  severity : AlertSeverity
  deriving DecidableEq, Repr

/-- The sink/cooldown part of `alert_system.rs` `AlertConfig`. -/
structure AlertConfigM where
  enable_console_alerts : Bool
  enable_file_alerts : Bool
  enable_email_alerts : Bool
  enable_discord_alerts : Bool
  cooldown_period_seconds : Nat
  deriving DecidableEq, Repr

/-- `AlertConfig::default()`: console on, file/email/discord off, 300 s
cooldown. -/
def alertConfigDefault : AlertConfigM :=
  { enable_console_alerts := true
    enable_file_alerts := false
    enable_email_alerts := false
    enable_discord_alerts := false
    cooldown_period_seconds := 300 }

/-- The mutable alert-system state: the per-address low-balance `thresholds`
map and the `SuspiciousActivityDetector.last_alert_times` cooldown table that
`is_in_cooldown` reads. Times are unix seconds. -/
structure AlertSystemState where
  thresholds : SMap Nat
  last_alert_times : SMap Nat
  deriving DecidableEq, Repr

/-- The state built by `AlertSystem::with_config`: both maps empty. -/
def initialAlertState : AlertSystemState :=
  { thresholds := [], last_alert_times := [] }

/-- `AlertSystem::set_threshold`: the body only logs
`"Cannot set threshold on immutable AlertSystem"` — it never writes the
`thresholds` map, so the state is returned unchanged. -/
def set_threshold (sys : AlertSystemState) (_address : String)
    (_threshold : Nat) : AlertSystemState :=
  sys

/-- `AlertSystem::is_in_cooldown`: the key's last-sent time is looked up in
`last_alert_times`; if present, suppress when
`now.signed_duration_since(last) < cooldown`. -/
def is_in_cooldown (cfg : AlertConfigM) (sys : AlertSystemState)
    (alert_key : String) (current_time : Nat) : Bool :=
  match getA sys.last_alert_times alert_key with
  | some last_alert_time =>
      decide ((current_time : Int) - (last_alert_time : Int)
        < (cfg.cooldown_period_seconds : Int))
  | none => false

/-- `AlertSystem::record_alert_time`: the source clones `last_alert_times`
(`let mut last_alert_times = self...last_alert_times.clone()`), inserts the
key into the clone, and drops the clone — the shared table is never written,
so the state is unchanged. -/
def record_alert_time (sys : AlertSystemState) (alert_key : String)
    (current_time : Nat) : AlertSystemState :=
  let _clone := setA sys.last_alert_times alert_key current_time
  sys

/-- The observable outcome of one `AlertSystem::send_alert` call: whether it
returned `Ok`, whether the alert passed the cooldown gate and was fanned out,
which sinks ran, whether the `record_alert_time` call was reached, and the
resulting state. -/
structure DispatchResult where
  returned_ok : Bool
  dispatched : Bool
  console_ran : Bool
  file_ran : Bool
  email_ran : Bool
  discord_ran : Bool
  record_call_reached : Bool
  state : AlertSystemState
  deriving DecidableEq, Repr

/-- `AlertSystem::send_alert`: suppress inside the cooldown window, otherwise
run the sinks in order console → file → email → discord. The file sink
(`send_file_alert`) is the only fallible sink (email and discord are logging
stubs that always return `Ok`); its error is propagated with `?`, aborting the
remaining sinks and the `record_alert_time` call. `file_write_ok` is the
outcome of the external filesystem append. -/
def send_alert (cfg : AlertConfigM) (file_write_ok : Bool)
    (sys : AlertSystemState) (alert_key : String) (current_time : Nat) :
    DispatchResult :=
  if is_in_cooldown cfg sys alert_key current_time then
    { returned_ok := true, dispatched := false, console_ran := false
      file_ran := false, email_ran := false, discord_ran := false
      record_call_reached := false, state := sys }
  else if cfg.enable_file_alerts && !file_write_ok then
    { returned_ok := false, dispatched := true
      console_ran := cfg.enable_console_alerts
      file_ran := true, email_ran := false, discord_ran := false
      record_call_reached := false, state := sys }
  else
    { returned_ok := true, dispatched := true
      console_ran := cfg.enable_console_alerts
      file_ran := cfg.enable_file_alerts
      email_ran := cfg.enable_email_alerts
      discord_ran := cfg.enable_discord_alerts
      record_call_reached := true
      state := record_alert_time sys alert_key current_time }

/-- The severity classification and gate of `AlertSystem::check_large_transfer`:
an alert is built iff `amount > large_transfer_threshold`, with severity
Critical above `10×`, Error above `5×`, else Warning. -/
def check_large_transfer (large_transfer_threshold : Nat) (tx : Transaction) :
    Option LargeTransferAlert :=
  if large_transfer_threshold < tx.amount then
    some
      { sender := tx.sender
        recipient := tx.recipient
        amount := tx.amount
        transaction_id := tx.id
        token_type := tx.token_type
        severity :=
          if large_transfer_threshold * 10 < tx.amount then AlertSeverity.Critical
          else if large_transfer_threshold * 5 < tx.amount then AlertSeverity.Error
          else AlertSeverity.Warning }
  else none

/-- `AlertSystem::check_balance_alert`: if the address has an entry in
`thresholds` and `balance < threshold`, build a `LowBalance` alert with
severity Critical below `threshold/10`, Error below `threshold/2`, else
Warning, and hand it to `send_alert` (key `low_balance_{address}`). Returns
the alert that was dispatched (if any) and the resulting state. -/
def check_balance_alert (cfg : AlertConfigM) (sys : AlertSystemState)
    (address : String) (balance : Nat) (current_time : Nat) :
    Option LowBalanceAlert × AlertSystemState :=
  match getA sys.thresholds address with
  | some threshold =>
      if balance < threshold then
        let severity :=
          if balance < threshold / 10 then AlertSeverity.Critical
          else if balance < threshold / 2 then AlertSeverity.Error
          else AlertSeverity.Warning
        let alert : LowBalanceAlert :=
          { address := address, balance := balance
            threshold := threshold, severity := severity }
        let r := send_alert cfg true sys ("low_balance_" ++ address) current_time
        (if r.dispatched then some alert else none, r.state)
      else (none, sys)
  | none => (none, sys)

/-! ## Event poller (`event_monitor.rs`) -/

/-- `sui_client.rs` `EventId`. -/
structure EventId where
  tx_digest : String
  event_seq : Nat
  deriving DecidableEq, Repr

/-- The `"value"` object that `parse_transfer_event` looks for inside
`event.parsed_json`, with its three optional string fields. -/
structure ParsedValue where
  amountField : Option String
  recipientField : Option String
  typeField : Option String
  deriving DecidableEq, Repr

/-- `sui_client.rs` `SuiEvent`, with `parsed_json` abstracted to the only part
`parse_transfer_event` inspects: the optional `"value"` object
(`parsed_json.as_object()` then `.get("value").and_then(as_object)`). -/
structure SuiEvent where
  id : EventId
  package_id : String
  transaction_module : String
  sender : String
  timestamp : Nat
  parsed_value : Option ParsedValue
  deriving DecidableEq, Repr

/-- Model of Rust `str::parse::<u64>()`: an optional leading `'+'`, then one
or more ASCII digits, and the value must fit in a `u64`. -/
def rustParseU64 (s : String) : Option Nat :=
  let cs :=
    match s.toList with
    | '+' :: rest => rest
    | l => l
  if cs = [] then none
  else if cs.all (fun c => c.isDigit) then
    let n := cs.foldl (fun acc c => acc * 10 + (c.toNat - 48)) 0
    if n ≤ u64max then some n else none
  else none

/-- The recipient string `parse_transfer_event` ends up with: the `recipient`
field of the `"value"` object when resolvable, otherwise the initial
`String::new()`. -/
def resolvedRecipient (event : SuiEvent) : String :=
  match event.parsed_value with
  | some v => v.recipientField.getD ""
  | none => ""

/-- `EventMonitor::parse_transfer_event`: `amount` defaults to 0 and, when the
field is present, is `amount_str.parse::<u64>().unwrap_or(0)` — a malformed
amount silently becomes 0; `token_type` defaults to `"0x2::sui::SUI"`; the
only error is an empty recipient. -/
def parse_transfer_event (event : SuiEvent) : Except String TransferEvent :=
  let amount :=
    match event.parsed_value with
    | some v =>
        match v.amountField with
        | some amount_str => (rustParseU64 amount_str).getD 0
        | none => 0
    | none => 0
  let recipient := resolvedRecipient event
  let token_type :=
    match event.parsed_value with
    | some v => v.typeField.getD "0x2::sui::SUI"
    | none => "0x2::sui::SUI"
  if recipient = "" then
    Except.error "Could not extract recipient from event"
  else
    Except.ok
      { transaction_id := event.id.tx_digest
        package_id := event.package_id
        transaction_module := event.transaction_module
        sender := event.sender
        recipient := recipient
        amount := amount
        token_type := token_type
        timestamp := event.timestamp
        block_number := event.id.event_seq
        event_type := "transfer" }

/-- The per-address event loop of `check_new_events_for_addresses`: events at
or below the watermark are skipped; newer events are parsed, a parse failure
dropping only that event; parsed events are emitted in order. -/
def processEvents (last_time : Nat) : List SuiEvent → List TransferEvent
  | [] => []
  | event :: rest =>
      if last_time < event.timestamp then
        match parse_transfer_event event with
        | Except.ok transfer_event => transfer_event :: processEvents last_time rest
        | Except.error _ => processEvents last_time rest
      else processEvents last_time rest

/-- One per-address poll cycle of `check_new_events_for_addresses`:
`fetched = none` is a fetch that failed after exhausting retries (the `Err`
arm only logs); on success the events are filtered/parsed/emitted and the
watermark is set to `current_time` exactly when `new_events > 0`. Returns the
emitted events and the new watermark. -/
def pollStep (fetched : Option (List SuiEvent)) (last_time current_time : Nat) :
    List TransferEvent × Nat :=
  match fetched with
  | none => ([], last_time)
  | some events =>
      let emitted := processEvents last_time events
      (emitted, if 0 < emitted.length then current_time else last_time)

/-! ## Concrete inputs used in counterexamples, scenarios and witnesses -/

/-- A self-transfer: sender and recipient are the same address `"a"`. -/
def evSelf : TransferEvent :=
  { transaction_id := "tx1"
    package_id := "0xp"
    transaction_module := "pay"
    sender := "a"
    recipient := "a"
    amount := 5
    token_type := "0x2::sui::SUI"
    timestamp := 100
    block_number := 1
    event_type := "transfer" }

/-- A plain transfer from `"a"` to `"b"` of 5 units. -/
def evAB : TransferEvent :=
  { transaction_id := "tx2"
    package_id := "0xp"
    transaction_module := "pay"
    sender := "a"
    recipient := "b"
    amount := 5
    token_type := "0x2::sui::SUI"
    timestamp := 100
    block_number := 1
    event_type := "transfer" }

/-- The spec scenario's 20 SUI transfer (amount `20_000_000_000`). -/
def tx20 : Transaction :=
  { id := "0x123"
    sender := "0xsender"
    recipient := "0xrecipient"
    amount := 20000000000
    token_type := "0x2::sui::SUI"
    timestamp := 1634567890
    block_number := 12345
    gas_used := none
    gas_price := none
    status := TransactionStatus.Success }

/-! ## C1: balance update -/

/-- C1 (counterexample). The claim reads every `TransferEvent` as leaving the
sender at `max(0, before - a)` and the recipient at `before + a`. For the
self-transfer `evSelf` (sender = recipient = `"a"`, amount 5) applied to the
empty ledger, the single stored balance afterwards is 5, which is not
`max(0, 0 - 5) = 0`, so the two required equalities cannot both hold. -/
theorem c1_balance_counterexample :
    ¬ (get_address_balance (process_transfer_event 1000 initialProcState evSelf)
          evSelf.sender
        = satSub (get_address_balance initialProcState evSelf.sender) evSelf.amount
      ∧ get_address_balance (process_transfer_event 1000 initialProcState evSelf)
          evSelf.recipient
        = satAdd (get_address_balance initialProcState evSelf.recipient)
            evSelf.amount) := by
  decide

/-- C1 (amended): for every event whose sender and recipient differ,
`process_transfer_event` leaves the sender at `saturating_sub(before, a)`
(that is, `max(0, before - a)`, never wrapping) and the recipient at
`saturating_add(before, a)` (clamped at `u64::MAX`); an address never seen
before reads as balance 0 throughout. -/
theorem c1_balance_amended (max_records : Nat) (st : ProcState)
    (event : TransferEvent) (h : event.sender ≠ event.recipient) :
    get_address_balance (process_transfer_event max_records st event) event.sender
      = satSub (get_address_balance st event.sender) event.amount
    ∧ get_address_balance (process_transfer_event max_records st event)
        event.recipient
      = satAdd (get_address_balance st event.recipient) event.amount
    ∧ (∀ address : String, getA st.address_balances address = none →
        get_address_balance st address = 0) := by
  refine ⟨?_, ?_, ?_⟩
  · show getD (setA (setA st.address_balances event.sender _) event.recipient _)
        event.sender 0 = _
    rw [getD_setA_ne _ _ _ _ _ (Ne.symm h), getD_setA_self]
    rfl
  · show getD (setA (setA st.address_balances event.sender _) event.recipient _)
        event.recipient 0 = _
    rw [getD_setA_self, getD_setA_ne _ _ _ _ _ h]
    rfl
  · intro address hnone
    simp [get_address_balance, getD, hnone]

/-- C1 (witness): the amended theorem applied to `evAB` (sender `"a"`,
recipient `"b"`, amount 5) on the empty ledger: the sender saturates to 0 and
the recipient holds 5. -/
theorem c1_balance_amended_witness :
    get_address_balance (process_transfer_event 1000 initialProcState evAB) "a" = 0
    ∧ get_address_balance (process_transfer_event 1000 initialProcState evAB) "b"
        = 5 := by
  have h := c1_balance_amended 1000 initialProcState evAB (by decide)
  exact ⟨h.1, h.2.1⟩

/-! ## C2: alert cooldown -/

/-- C2 (code evaluation at the failing input). Firing the same alert key
twice 10 seconds apart with the default 300 s cooldown dispatches BOTH
alerts, because `record_alert_time` inserts the timestamp into a clone of
`last_alert_times` that is immediately dropped: after the first successful
dispatch the shared cooldown table is still empty, so the second
`is_in_cooldown` check finds nothing. The claim's "exactly one alert" and
"records the current time ... in the same shared cooldown table" both fail. -/
theorem c2_cooldown_inert :
    (send_alert alertConfigDefault true initialAlertState "low_balance_0xtest" 0
      ).dispatched = true
    ∧ (send_alert alertConfigDefault true
        (send_alert alertConfigDefault true initialAlertState
          "low_balance_0xtest" 0).state
        "low_balance_0xtest" 10).dispatched = true
    ∧ (send_alert alertConfigDefault true initialAlertState "low_balance_0xtest" 0
      ).state.last_alert_times = [] := by
  decide

/-! ## C5: large-transfer severity -/

/-- C5: `check_large_transfer` raises an alert iff the amount strictly
exceeds the threshold, with severity Critical above `10×`, Error above `5×`
and Warning otherwise; the 20_000_000_000 transfer against a 10_000_000_000
threshold (exactly 2×) gets severity Warning. -/
theorem c5_large_transfer_severity (large_transfer_threshold : Nat)
    (tx : Transaction) :
    ((check_large_transfer large_transfer_threshold tx).isSome
      ↔ large_transfer_threshold < tx.amount)
    ∧ (check_large_transfer large_transfer_threshold tx).map
        (fun a => a.severity)
      = (if large_transfer_threshold < tx.amount then
          some
            (if large_transfer_threshold * 10 < tx.amount then
              AlertSeverity.Critical
            else if large_transfer_threshold * 5 < tx.amount then
              AlertSeverity.Error
            else AlertSeverity.Warning)
        else none)
    ∧ (check_large_transfer 10000000000 tx20).map (fun a => a.severity)
      = some AlertSeverity.Warning := by
  refine ⟨?_, ?_, by decide⟩
  · by_cases h : large_transfer_threshold < tx.amount <;>
      simp [check_large_transfer, h]
  · by_cases h : large_transfer_threshold < tx.amount <;>
      simp [check_large_transfer, h]

/-! ## C6: low-balance threshold configuration -/

/-- C6 (code evaluation at the failing input). `set_threshold` never writes
the `thresholds` map (its body is a single `log::warn!`), so after
"configuring" a 1_000_000_000 threshold for `"0xtest"`, a balance check at
500_000_000 emits nothing — the claimed Warning alert (also asserted by the
repository's own `test_balance_alert`) does not appear. The second conjunct
shows the rest of the claim is faithful to `check_balance_alert`: with the
threshold actually present in the map, the same check yields a Warning
`LowBalance` alert, and the severity tiers match the claim. -/
theorem c6_set_threshold_inert :
    (check_balance_alert alertConfigDefault
        (set_threshold initialAlertState "0xtest" 1000000000)
        "0xtest" 500000000 0).1 = none
    ∧ (check_balance_alert alertConfigDefault
        { thresholds := [("0xtest", 1000000000)], last_alert_times := [] }
        "0xtest" 500000000 0).1
      = some
          { address := "0xtest"
            balance := 500000000
            threshold := 1000000000
            severity := AlertSeverity.Warning }
    ∧ (check_balance_alert alertConfigDefault
        { thresholds := [("0xtest", 1000000000)], last_alert_times := [] }
        "0xtest" 99999999 0).1
      = some
          { address := "0xtest"
            balance := 99999999
            threshold := 1000000000
            severity := AlertSeverity.Critical }
    ∧ (check_balance_alert alertConfigDefault
        { thresholds := [("0xtest", 1000000000)], last_alert_times := [] }
        "0xtest" 499999999 0).1
      = some
          { address := "0xtest"
            balance := 499999999
            threshold := 1000000000
            severity := AlertSeverity.Error } := by
  decide

/-! ## C3: history cap invariant -/

/-- The history-cap invariant: every address's stored history has length at
most `max_records`. -/
def histLenOK (max_records : Nat) (st : ProcState) : Prop :=
  ∀ address : String,
    (getD st.transaction_history address []).length ≤ max_records

theorem length_insertDescTs (t : Transaction) (l : List Transaction) :
    (insertDescTs t l).length = l.length + 1 := by
  induction l with
  | nil => rfl
  | cons x xs ih =>
      by_cases h : x.timestamp ≤ t.timestamp <;> simp [insertDescTs, h, ih]

theorem length_sortDescTs (l : List Transaction) :
    (sortDescTs l).length = l.length := by
  induction l with
  | nil => rfl
  | cons x xs ih => simp [sortDescTs, length_insertDescTs, ih]

theorem perm_insertDescTs (t : Transaction) (l : List Transaction) :
    (insertDescTs t l).Perm (t :: l) := by
  induction l with
  | nil => simp [insertDescTs]
  | cons x xs ih =>
      by_cases h : x.timestamp ≤ t.timestamp
      · simp [insertDescTs, h]
      · simp only [insertDescTs, h, if_false]
        exact ((ih.cons x).trans (List.Perm.swap t x xs))

theorem perm_sortDescTs (l : List Transaction) : (sortDescTs l).Perm l := by
  induction l with
  | nil => simp [sortDescTs]
  | cons x xs ih =>
      exact (perm_insertDescTs x (sortDescTs xs)).trans (ih.cons x)

theorem pairwise_insertDescTs (t : Transaction) (l : List Transaction)
    (h : List.Pairwise (fun a b => b.timestamp ≤ a.timestamp) l) :
    List.Pairwise (fun a b => b.timestamp ≤ a.timestamp) (insertDescTs t l) := by
  induction l with
  | nil => simp [insertDescTs]
  | cons x xs ih =>
      by_cases hx : x.timestamp ≤ t.timestamp
      · simp only [insertDescTs, hx, if_true]
        refine List.Pairwise.cons ?_ h
        intro b hb
        rcases List.mem_cons.mp hb with hbx | hbxs
        · subst hbx
          exact hx
        · exact le_trans (List.rel_of_pairwise_cons h hbxs) hx
      · simp only [insertDescTs, hx, if_false]
        refine List.Pairwise.cons ?_ (ih h.of_cons)
        intro b hb
        have hmem := (perm_insertDescTs t xs).mem_iff.mp hb
        rcases List.mem_cons.mp hmem with hbt | hbxs
        · subst hbt
          exact le_of_lt (lt_of_not_le hx)
        · exact List.rel_of_pairwise_cons h hbxs

theorem pairwise_sortDescTs (l : List Transaction) :
    List.Pairwise (fun a b => b.timestamp ≤ a.timestamp) (sortDescTs l) := by
  induction l with
  | nil => simp [sortDescTs]
  | cons x xs ih => exact pairwise_insertDescTs x (sortDescTs xs) ih

theorem enforceList_length_le (max_records : Nat) (l : List Transaction) :
    (enforceList max_records l).length ≤ max_records := by
  unfold enforceList
  split
  · simp [List.length_take, length_sortDescTs]
  · omega

theorem histLenOK_apply (max_records : Nat) (st : ProcState)
    (event : TransferEvent) :
    histLenOK max_records (process_transfer_event max_records st event) := by
  intro address
  show (getD (enforce_history_limits max_records _) address []).length ≤ _
  unfold enforce_history_limits
  rw [getD, getA_mapVal]
  cases getA (setA _ event.recipient _) address with
  | none => simp
  | some l => simpa using enforceList_length_le max_records l

theorem cleanupHistory_fst (current_time max_age_seconds : Nat)
    (m : SMap (List Transaction)) :
    (cleanupHistory current_time max_age_seconds m).1
      = mapVal (List.filter (cleanupKeep current_time max_age_seconds)) m := by
  induction m with
  | nil => rfl
  | cons p rest ih => simp [cleanupHistory, mapVal, ih]

theorem histLenOK_cleanup (max_records current_time max_age_seconds : Nat)
    (st : ProcState) (h : histLenOK max_records st) :
    histLenOK max_records
      (cleanup_old_transactions current_time max_age_seconds st).1 := by
  intro address
  show (getD (cleanupHistory current_time max_age_seconds
      st.transaction_history).1 address []).length ≤ _
  rw [cleanupHistory_fst, getD, getA_mapVal]
  have hst := h address
  rw [getD] at hst
  cases hge : getA st.transaction_history address with
  | none => simp
  | some l =>
      rw [hge] at hst
      simp only [Option.map_some', Option.getD_some] at *
      exact le_trans (List.length_filter_le _ l) hst

theorem histLenOK_runOps (max_records : Nat) (ops : List LedgerOp)
    (st : ProcState) (h : histLenOK max_records st) :
    histLenOK max_records (runOps max_records ops st) := by
  induction ops generalizing st with
  | nil => exact h
  | cons op rest ih =>
      cases op with
      | apply e => exact ih _ (histLenOK_apply max_records st e)
      | cleanup now age =>
          exact ih _ (histLenOK_cleanup max_records now age st h)

/-- C3: after any sequence of `process_transfer_event` and
`cleanup_old_transactions` calls starting from the empty ledger, every
address's stored history has length at most `max_history_records`; and
whenever a history list is over the cap, `enforce_history_limits` truncates
it to exactly the cap, the retained records are sorted descending by
timestamp, every dropped record's timestamp is at most every retained
record's timestamp (oldest dropped first), and retained plus dropped records
are a permutation of the originals. -/
theorem c3_history_cap :
    (∀ (max_records : Nat) (ops : List LedgerOp),
      histLenOK max_records (runOps max_records ops initialProcState))
    ∧ (∀ (max_records : Nat) (l : List Transaction),
        max_records < l.length →
        (enforceList max_records l).length = max_records
        ∧ List.Pairwise (fun a b => b.timestamp ≤ a.timestamp)
            (enforceList max_records l)
        ∧ (∀ a ∈ enforceList max_records l,
            ∀ b ∈ (sortDescTs l).drop max_records, b.timestamp ≤ a.timestamp)
        ∧ (enforceList max_records l
            ++ (sortDescTs l).drop max_records).Perm l) := by
  constructor
  · intro max_records ops
    refine histLenOK_runOps max_records ops initialProcState ?_
    intro address
    simp [initialProcState, getD, getA]
  · intro max_records l hlen
    have henf : enforceList max_records l = (sortDescTs l).take max_records := by
      unfold enforceList
      simp [hlen]
    have hsorted := pairwise_sortDescTs l
    have hsplit := List.take_append_drop max_records (sortDescTs l)
    refine ⟨?_, ?_, ?_, ?_⟩
    · rw [henf]
      simp [List.length_take, length_sortDescTs]
      omega
    · rw [henf]
      exact hsorted.sublist (List.take_sublist _ _)
    · rw [henf]
      have := (List.pairwise_append.mp (hsplit ▸ hsorted)).2.2
      exact this
    · rw [henf, hsplit]
      exact perm_sortDescTs l

/-- C3 (witness): the truncation clause of `c3_history_cap` applied at cap 1
to a concrete two-element history. -/
theorem c3_history_cap_witness :
    (enforceList 1 [mkTransaction evAB, mkTransaction evSelf]).length = 1 :=
  (c3_history_cap.2 1 [mkTransaction evAB, mkTransaction evSelf] (by decide)).1

/-! ## C4: watermark advancement -/

/-- A well-formed fetched event: resolvable recipient and numeric amount. -/
def evGood : SuiEvent :=
  { id := { tx_digest := "0xgood", event_seq := 3 }
    package_id := "0xp"
    transaction_module := "pay"
    sender := "0xs"
    timestamp := 1000
    parsed_value :=
      some
        { amountField := some "1000000000"
          recipientField := some "0xr"
          typeField := some "0x2::sui::SUI" } }

/-- C4: in a per-address poll cycle, exactly the fetched events with timestamp
strictly above the watermark are parsed and emitted (in fetch order, parse
failures dropped); the watermark becomes the current poll time when at least
one event was emitted, stays unchanged when none was, and stays unchanged
when the fetch failed after exhausting retries (`fetched = none`). -/
theorem c4_watermark (events : List SuiEvent) (last_time current_time : Nat) :
    processEvents last_time events
      = (events.filter (fun ev => decide (last_time < ev.timestamp))).filterMap
          (fun ev => (parse_transfer_event ev).toOption)
    ∧ ((pollStep (some events) last_time current_time).1 ≠ [] →
        (pollStep (some events) last_time current_time).2 = current_time)
    ∧ ((pollStep (some events) last_time current_time).1 = [] →
        (pollStep (some events) last_time current_time).2 = last_time)
    ∧ pollStep none last_time current_time = ([], last_time) := by
  refine ⟨?_, ?_, ?_, rfl⟩
  · induction events with
    | nil => rfl
    | cons ev rest ih =>
        by_cases h : last_time < ev.timestamp
        · cases hp : parse_transfer_event ev with
          | ok te => simp [processEvents, h, hp, Except.toOption, ih]
          | error e => simp [processEvents, h, hp, Except.toOption, ih]
        · simp [processEvents, h, ih]
  · intro hne
    show (if 0 < (processEvents last_time events).length then current_time
      else last_time) = current_time
    have : 0 < (processEvents last_time events).length :=
      List.length_pos.mpr hne
    simp [this]
  · intro hnil
    have hnil2 : processEvents last_time events = [] := hnil
    show (if 0 < (processEvents last_time events).length then current_time
      else last_time) = last_time
    simp [hnil2]

/-- C4 (witness): `c4_watermark` at a single good event over watermark 0
(watermark jumps to the poll time 7777, not to the event's timestamp 1000)
and at an empty batch (watermark 55 unchanged). -/
theorem c4_watermark_witness :
    (pollStep (some [evGood]) 0 7777).2 = 7777
    ∧ (pollStep (some ([] : List SuiEvent)) 55 7777).2 = 55 :=
  ⟨(c4_watermark [evGood] 0 7777).2.1 (by decide),
   (c4_watermark [] 55 7777).2.2.1 (by decide)⟩

/-! ## C7: sink fan-out isolation -/

/-- A configuration with console, file and email sinks enabled. -/
def cfg7 : AlertConfigM :=
  { enable_console_alerts := true
    enable_file_alerts := true
    enable_email_alerts := true
    enable_discord_alerts := false
    cooldown_period_seconds := 300 }

/-- C7 (counterexample). With console, file and email sinks enabled and the
file append failing, the claim requires the email sink to still run and the
cooldown timestamp to be recorded for the key. In the code the file sink's
error is propagated with `?`, so the email sink is never invoked and
`record_alert_time` is never reached (and the cooldown table would stay empty
even if it were, per the clone bug): both required facts are false. -/
theorem c7_sink_isolation_counterexample :
    ¬ ((send_alert cfg7 false initialAlertState "system_error_monitor" 0
        ).email_ran = true
      ∧ getA (send_alert cfg7 false initialAlertState "system_error_monitor" 0
          ).state.last_alert_times "system_error_monitor" = some 0) := by
  decide

/-- C7 (amended): a failure of the file sink (the only fallible sink — the
email and Discord senders are infallible stubs) makes `send_alert` return the
error immediately: the console sink, ordered before it, has run, but the
email and Discord sinks are skipped and the `record_alert_time` call is never
reached, leaving the cooldown table unchanged. Moreover even a fully
successful dispatch leaves the cooldown table unchanged, because
`record_alert_time` inserts into a discarded clone. -/
theorem c7_sink_isolation_amended (cfg : AlertConfigM) (sys : AlertSystemState)
    (alert_key : String) (current_time : Nat)
    (hfile : cfg.enable_file_alerts = true)
    (hcd : is_in_cooldown cfg sys alert_key current_time = false) :
    (send_alert cfg false sys alert_key current_time).returned_ok = false
    ∧ (send_alert cfg false sys alert_key current_time).console_ran
        = cfg.enable_console_alerts
    ∧ (send_alert cfg false sys alert_key current_time).file_ran = true
    ∧ (send_alert cfg false sys alert_key current_time).email_ran = false
    ∧ (send_alert cfg false sys alert_key current_time).discord_ran = false
    ∧ (send_alert cfg false sys alert_key current_time).record_call_reached
        = false
    ∧ (send_alert cfg false sys alert_key current_time).state = sys
    ∧ (send_alert cfg true sys alert_key current_time).state = sys := by
  simp [send_alert, hcd, hfile, record_alert_time]

/-- C7 (witness): the amended theorem at the concrete configuration `cfg7`
on the empty alert state. -/
theorem c7_sink_isolation_amended_witness :
    (send_alert cfg7 false initialAlertState "k" 0).email_ran = false
    ∧ (send_alert cfg7 false initialAlertState "k" 0).returned_ok = false := by
  have h := c7_sink_isolation_amended cfg7 initialAlertState "k" 0 rfl (by decide)
  exact ⟨h.2.2.2.1, h.1⟩

/-! ## C8: parse-error policy -/

/-- A fetched event with a resolvable recipient but a malformed amount field
(`"12abc"` does not parse as a `u64`). -/
def evBadAmount : SuiEvent :=
  { id := { tx_digest := "0xbad", event_seq := 7 }
    package_id := "0xp"
    transaction_module := "pay"
    sender := "0xs"
    timestamp := 1000
    parsed_value :=
      some
        { amountField := some "12abc"
          recipientField := some "0xr"
          typeField := some "0x2::sui::SUI" } }

/-- A fetched event with no resolvable recipient. -/
def evNoRecipient : SuiEvent :=
  { id := { tx_digest := "0xnorcpt", event_seq := 9 }
    package_id := "0xp"
    transaction_module := "pay"
    sender := "0xs"
    timestamp := 1000
    parsed_value :=
      some
        { amountField := some "1000"
          recipientField := none
          typeField := none } }

/-- C8 (counterexample). The claim requires a malformed amount field to yield
a parse error. For `evBadAmount` (recipient resolvable, amount `"12abc"`),
`parse_transfer_event` instead succeeds with the amount coerced to 0 by
`amount_str.parse::<u64>().unwrap_or(0)`. -/
theorem c8_parse_counterexample :
    parse_transfer_event evBadAmount
      = Except.ok
          { transaction_id := "0xbad"
            package_id := "0xp"
            transaction_module := "pay"
            sender := "0xs"
            recipient := "0xr"
            amount := 0
            token_type := "0x2::sui::SUI"
            timestamp := 1000
            block_number := 7
            event_type := "transfer" } := by
  rfl

/-- C8 (amended): `parse_transfer_event` fails exactly when the raw record
lacks a resolvable recipient; a malformed amount field is not an error (the
amount is coerced to 0 and the event still parses). A parse failure of one
event never aborts the batch: the per-address loop is a homomorphism over
batch concatenation and a failing event by itself contributes nothing. -/
theorem c8_parse_amended :
    (∀ ev : SuiEvent,
      ((parse_transfer_event ev).isOk = false ↔ resolvedRecipient ev = ""))
    ∧ (∀ (last_time : Nat) (l1 l2 : List SuiEvent),
        processEvents last_time (l1 ++ l2)
          = processEvents last_time l1 ++ processEvents last_time l2)
    ∧ (∀ (ev : SuiEvent) (last_time : Nat),
        (parse_transfer_event ev).isOk = false →
        processEvents last_time [ev] = []) := by
  refine ⟨?_, ?_, ?_⟩
  · intro ev
    by_cases h : resolvedRecipient ev = "" <;>
      simp [parse_transfer_event, h, Except.isOk, Except.toBool]
  · intro last_time l1 l2
    induction l1 with
    | nil => rfl
    | cons ev rest ih =>
        by_cases h : last_time < ev.timestamp
        · cases hp : parse_transfer_event ev with
          | ok te => simp [processEvents, h, hp, ih]
          | error e => simp [processEvents, h, hp, ih]
        · simp [processEvents, h, ih]
  · intro ev last_time hfail
    by_cases h : last_time < ev.timestamp
    · cases hp : parse_transfer_event ev with
      | ok te => rw [hp] at hfail; simp [Except.isOk, Except.toBool] at hfail
      | error e => simp [processEvents, h, hp]
    · simp [processEvents, h]

/-- C8 (witness): the amended theorem at the recipient-less event
`evNoRecipient`: its parse fails, and as the sole batch element it is
dropped, yielding an empty emission. -/
theorem c8_parse_amended_witness :
    (parse_transfer_event evNoRecipient).isOk = false
    ∧ processEvents 0 [evNoRecipient] = [] :=
  ⟨(c8_parse_amended.1 evNoRecipient).mpr (by decide),
   c8_parse_amended.2.2 evNoRecipient 0
     ((c8_parse_amended.1 evNoRecipient).mpr (by decide))⟩

/-! ## C9: cleanup frame -/

/-- Total number of stored history entries across all addresses. -/
def totalEntries (m : SMap (List Transaction)) : Nat :=
  (m.map (fun p => p.2.length)).sum

/-- The repository test's far-in-the-past transfer (timestamp
`1_000_000_000`). -/
def evOld : TransferEvent :=
  { transaction_id := "0xold"
    package_id := "0x456"
    transaction_module := "test"
    sender := "0xsender"
    recipient := "0xrecipient"
    amount := 1000000000
    token_type := "0x2::sui::SUI"
    timestamp := 1000000000
    block_number := 12345
    event_type := "transfer" }

theorem cleanupHistory_count (current_time max_age_seconds : Nat)
    (m : SMap (List Transaction)) :
    (cleanupHistory current_time max_age_seconds m).2
      + totalEntries (cleanupHistory current_time max_age_seconds m).1
      = totalEntries m := by
  induction m with
  | nil => rfl
  | cons p rest ih =>
      have hfl := List.length_filter_le
        (cleanupKeep current_time max_age_seconds) p.2
      simp only [cleanupHistory, totalEntries, List.map_cons, List.sum_cons]
        at ih ⊢
      omega

/-- C9: `cleanup_old_transactions` keeps, per address, exactly the history
entries with `current_time - timestamp <= max_age_seconds` (removing exactly
the older ones), returns the total number of removed entries (removed plus
retained equals the original total), and leaves every balance and every
`AddressStats` value untouched. Scenario: on a ledger holding only the
far-in-the-past transfer `evOld`, a 86400-second cleanup at time
2_000_000_000 removes at least one record while balances and stats are
unchanged. -/
theorem c9_cleanup_frame (st : ProcState) (current_time max_age_seconds : Nat) :
    (∀ address : String,
      getD (cleanup_old_transactions current_time max_age_seconds st
          ).1.transaction_history address []
        = (getD st.transaction_history address []).filter
            (cleanupKeep current_time max_age_seconds))
    ∧ (cleanup_old_transactions current_time max_age_seconds st).2
        + totalEntries (cleanup_old_transactions current_time max_age_seconds st
            ).1.transaction_history
      = totalEntries st.transaction_history
    ∧ (cleanup_old_transactions current_time max_age_seconds st
        ).1.address_balances = st.address_balances
    ∧ (cleanup_old_transactions current_time max_age_seconds st
        ).1.address_stats = st.address_stats
    ∧ 1 ≤ (cleanup_old_transactions 2000000000 86400
            (process_transfer_event 1000 initialProcState evOld)).2
    ∧ (cleanup_old_transactions 2000000000 86400
          (process_transfer_event 1000 initialProcState evOld)
        ).1.address_balances
      = (process_transfer_event 1000 initialProcState evOld).address_balances
    ∧ (cleanup_old_transactions 2000000000 86400
          (process_transfer_event 1000 initialProcState evOld)
        ).1.address_stats
      = (process_transfer_event 1000 initialProcState evOld).address_stats := by
  refine ⟨?_, ?_, rfl, rfl, by decide, rfl, rfl⟩
  · intro address
    show getD (cleanupHistory current_time max_age_seconds
        st.transaction_history).1 address [] = _
    rw [cleanupHistory_fst, getD, getA_mapVal]
    cases h : getA st.transaction_history address with
    | none => simp [getD, h]
    | some l => simp [getD, h]
  · exact cleanupHistory_count current_time max_age_seconds
      st.transaction_history

/-! ## C10: self-transfer behaviour -/

/-- Field preservation of the average-recomputation step: `avgFix` only
changes `average_transaction_amount`. -/
theorem avgFix_fields (s : AddressStats) :
    (avgFix s).total_transactions = s.total_transactions
    ∧ (avgFix s).total_sent = s.total_sent
    ∧ (avgFix s).total_received = s.total_received := by
  unfold avgFix
  split <;> simp

/-- C10 (counterexample). The claim says a self-transfer always appends two
copies of the transaction to the address's history. With
`max_history_records = 1` (an admissible `ProcessorConfig`), applying the
self-transfer `evSelf` to the empty ledger leaves a single-element history —
`enforce_history_limits` truncates the two pushed copies back to the cap —
so the history does not gain two copies. -/
theorem c10_self_transfer_counterexample :
    ¬ (getD (process_transfer_event 1 initialProcState evSelf
          ).transaction_history "a" []
        = getD initialProcState.transaction_history "a" []
          ++ [mkTransaction evSelf, mkTransaction evSelf]) := by
  decide

/-- C10 (amended): when an event's sender equals its recipient and the
address's history after the two pushes stays within `max_history_records`,
that address's `total_transactions` grows by 2, `total_sent` and
`total_received` each grow by the amount, the history gains two copies of the
same `Transaction` record, and the balance becomes
`saturating_add(saturating_sub(old, amount), amount)` — which equals `amount`
whenever `old < amount` (and the amount is in `u64` range). -/
theorem c10_self_transfer_amended (max_records : Nat) (st : ProcState)
    (event : TransferEvent) (hself : event.sender = event.recipient)
    (hcap : (getD st.transaction_history event.sender []).length + 2
      ≤ max_records) :
    (getD (process_transfer_event max_records st event).address_stats
        event.sender statsDefault).total_transactions
      = (getD st.address_stats event.sender statsDefault).total_transactions + 2
    ∧ (getD (process_transfer_event max_records st event).address_stats
        event.sender statsDefault).total_sent
      = (getD st.address_stats event.sender statsDefault).total_sent
        + event.amount
    ∧ (getD (process_transfer_event max_records st event).address_stats
        event.sender statsDefault).total_received
      = (getD st.address_stats event.sender statsDefault).total_received
        + event.amount
    ∧ getD (process_transfer_event max_records st event).transaction_history
        event.sender []
      = getD st.transaction_history event.sender []
        ++ [mkTransaction event, mkTransaction event]
    ∧ get_address_balance (process_transfer_event max_records st event)
        event.sender
      = satAdd (satSub (get_address_balance st event.sender) event.amount)
          event.amount
    ∧ (get_address_balance st event.sender < event.amount →
        event.amount ≤ u64max →
        get_address_balance (process_transfer_event max_records st event)
          event.sender = event.amount) := by
  have hstats :
      getD (process_transfer_event max_records st event).address_stats
        event.sender statsDefault
      = avgFix
          (bumpReceiverStats
            (bumpSenderStats (getD st.address_stats event.sender statsDefault)
              (mkTransaction event))
            (mkTransaction event)) := by
    show getD (recomputeAverages _) event.sender statsDefault = _
    unfold recomputeAverages
    rw [getD, getA_mapVal, ← hself, getA_setA_self]
    simp only [Option.map_some', Option.getD_some]
    rw [getD_setA_self]
  have hhist :
      getD (process_transfer_event max_records st event).transaction_history
        event.sender []
      = getD st.transaction_history event.sender []
        ++ [mkTransaction event, mkTransaction event] := by
    show getD (enforce_history_limits max_records _) event.sender [] = _
    unfold enforce_history_limits
    rw [getD, getA_mapVal, ← hself, getA_setA_self]
    simp only [Option.map_some', Option.getD_some]
    rw [getD_setA_self]
    have hlen :
        ((getD st.transaction_history event.sender [] ++ [mkTransaction event])
          ++ [mkTransaction event]).length
        = (getD st.transaction_history event.sender []).length + 2 := by
      simp
    unfold enforceList
    rw [hlen]
    have : ¬ max_records
        < (getD st.transaction_history event.sender []).length + 2 := by
      omega
    simp [this]
  have hbal :
      get_address_balance (process_transfer_event max_records st event)
        event.sender
      = satAdd (satSub (get_address_balance st event.sender) event.amount)
          event.amount := by
    show getD (setA (setA st.address_balances event.sender _) event.recipient _)
        event.sender 0 = _
    rw [← hself, getD_setA_self, getD_setA_self]
    rfl
  refine ⟨?_, ?_, ?_, hhist, hbal, ?_⟩
  · rw [hstats, (avgFix_fields _).1]
    simp [bumpReceiverStats, bumpSenderStats, mkTransaction]
  · rw [hstats, (avgFix_fields _).2.1]
    simp [bumpReceiverStats, bumpSenderStats, mkTransaction]
  · rw [hstats, (avgFix_fields _).2.2]
    simp [bumpReceiverStats, bumpSenderStats, mkTransaction]
  · intro hlt hle
    rw [hbal]
    unfold satSub satAdd
    rw [Nat.sub_eq_zero_of_le (le_of_lt hlt)]
    simpa using hle

/-- C10 (witness): the amended theorem at the self-transfer `evSelf`
(address `"a"`, amount 5, empty ledger, cap 1000): two history copies, stats
bumped twice, and the balance nets to the amount. -/
theorem c10_self_transfer_amended_witness :
    (getD (process_transfer_event 1000 initialProcState evSelf).address_stats
        "a" statsDefault).total_transactions = 2
    ∧ getD (process_transfer_event 1000 initialProcState evSelf
        ).transaction_history "a" []
      = [mkTransaction evSelf, mkTransaction evSelf]
    ∧ get_address_balance (process_transfer_event 1000 initialProcState evSelf)
        "a" = 5 := by
  have h := c10_self_transfer_amended 1000 initialProcState evSelf rfl
    (by decide)
  exact ⟨h.1, h.2.2.2.1, h.2.2.2.2.2 (by decide) (by decide)⟩
